import Mathlib

/-!
Verification development for the `udata-front` core: the feed summary
extractor (`get_blog_post` in `udata_front/theme/gouvfr/__init__.py`) and the
resilient page content fetcher (`get_page_content_locale`, `get_page_content`,
`get_pages_gh_urls`, `detect_pages_extension`, `show_page` in
`udata_front/views/gouvfr.py`).

Python exceptions are modelled with `Except`, remote collaborators as
explicit world records, and the process-wide fallback cache as a function
`String → Option String` threaded through each operation together with a
trace of the cache operations and HTTP requests it performs.
-/

/-- Python exception classes that can cross a function boundary in the
embedded code.  `httpAbort` models Flask's `abort(n)` (an HTTPException that
the surrounding framework turns into a structured HTTP response). -/
inductive PyExc where
  | requestExc
  | unboundLocal
  | httpAbort (code : Nat)
  | typeExc
  | indexExc
  | attributeExc
  | valueExc
deriving DecidableEq

/-- HTTP method of an outgoing request (`requests.get` / `requests.head`). -/
inductive HttpMethod where
  | get
  | head
deriving DecidableEq

/-- An outgoing HTTP request as issued by the code: the `timeout` field is
`some n` exactly when the source passes `timeout=n` to `requests`, and `none`
when the call site passes no timeout at all. -/
structure HttpReq where
  method : HttpMethod
  url : String
  timeout : Option Nat
deriving DecidableEq

/-- Outcome of a remote HTTP call: a response with a final status code and a
body, or a raised `requests` transport exception.  `requests.Timeout` and the
other `RequestException` subclasses are handled identically at every call
site of the embedded code (log and recover), so a single constructor models
them. -/
inductive NetOutcome where
  | resp (status : Nat) (body : String)
  | exn
deriving DecidableEq

/-! ## String helpers mirroring the Python builtins used by the source -/

/-- Python `str.isspace` characters relevant to `str.strip()` and `\s`
(ASCII range). -/
def pyIsSpace (c : Char) : Bool :=
  c = ' ' || c = '\t' || c = '\n' || c = '\r' || c = '\x0b' || c = '\x0c'

/-- Python `str.strip()`: remove leading and trailing whitespace. -/
def pyStrip (s : String) : String :=
  String.mk (((s.data.dropWhile pyIsSpace).reverse.dropWhile pyIsSpace).reverse)

/-- Replace every non-overlapping occurrence of `pat` (non-empty) in `s`,
left to right, as Python `str.replace` does.  Fuel-indexed; each step either
consumes a full occurrence of `pat` or one character. -/
def listReplace (pat rep : List Char) : Nat → List Char → List Char
  | 0, s => s
  | n + 1, s =>
    if s.take pat.length = pat ∧ pat ≠ [] then
      rep ++ listReplace pat rep n (s.drop pat.length)
    else
      match s with
      | [] => []
      | c :: t => c :: listReplace pat rep n t

/-- Python `s.replace(pat, rep)`. -/
def strReplace (s pat rep : String) : String :=
  String.mk (listReplace pat.data rep.data (s.data.length + 1) s.data)

/-- Python `s[:4]` for a string slice of length at most 4. -/
def pySlice4 (s : String) : String := String.mk (s.data.take 4)

/-! ## A small backtracking regular-expression engine

The two compiled patterns of the source (`RE_POST_IMG`, `RE_STRIP_TAGS`) are
embedded as abstract syntax trees and run by a continuation-passing
backtracking matcher that follows CPython `re` semantics for the constructs
the patterns use: ordered alternation, lazy (`*?`, `+?`) and greedy (`*`,
`+`, `?`) repetition, `re.I` case folding, `re.S` dot-matches-all, and
last-participation capture groups restored on backtracking (bindings are
threaded functionally, so a failed branch discards its captures). -/

/-- Regular expression syntax: `chr` is a case-insensitive literal character
(all source patterns carry `re.I`), `cls` a character class, `starL` a lazy
star, `starG` a greedy star, `grp` a numbered capture group. -/
inductive RE where
  | eps : RE
  | chr : Char → RE
  | cls : (Char → Bool) → RE
  | seq : RE → RE → RE
  | alt : RE → RE → RE
  | starL : RE → RE
  | starG : RE → RE
  | grp : Nat → RE → RE

/-- Capture-group bindings; the most recent binding for an index shadows
older ones, matching Python's last-participation rule. -/
abbrev Groups := List (Nat × String)

/-- Case-insensitive character comparison for `re.I`. -/
def lowerEq (a b : Char) : Bool := a.toLower = b.toLower

/-- The backtracking matcher.  `k` is the continuation receiving the
remaining input and the capture bindings; alternatives are explored in
CPython order (left alternative first, lazy star tries the continuation
first, greedy star tries another iteration first) and the first success
wins.  Fuel bounds the recursion depth. -/
def reMat (fuel : Nat) (r : RE) (s : List Char) (g : Groups)
    (k : List Char → Groups → Option (List Char × Groups)) :
    Option (List Char × Groups) :=
  match fuel with
  | 0 => none
  | fuel + 1 =>
    match r with
    | .eps => k s g
    | .chr c =>
      match s with
      | [] => none
      | x :: rest => if lowerEq x c then k rest g else none
    | .cls p =>
      match s with
      | [] => none
      | x :: rest => if p x then k rest g else none
    | .seq a b => reMat fuel a s g (fun s2 g2 => reMat fuel b s2 g2 k)
    | .alt a b =>
      match reMat fuel a s g k with
      | some res => some res
      | none => reMat fuel b s g k
    | .starL a =>
      match k s g with
      | some res => some res
      | none => reMat fuel a s g (fun s2 g2 => reMat fuel (.starL a) s2 g2 k)
    | .starG a =>
      match reMat fuel a s g (fun s2 g2 => reMat fuel (.starG a) s2 g2 k) with
      | some res => some res
      | none => k s g
    | .grp i a =>
      reMat fuel a s g
        (fun s2 g2 => k s2 ((i, String.mk (s.take (s.length - s2.length))) :: g2))

/-- `re.search`: try a match at every start position from the left; at the
first position where the pattern matches, return the remaining input and the
captures of the match the backtracking order prefers. -/
def reSearchAux (fuel : Nat) (r : RE) (s : List Char) :
    Option (List Char × Groups) :=
  match reMat fuel r s [] (fun rest g => some (rest, g)) with
  | some res => some res
  | none =>
    match s with
    | [] => none
    | _ :: t => reSearchAux fuel r t

/-- The value of capture group `i` after a match (`None` when the group did
not participate). -/
def groupStr (g : Groups) (i : Nat) : Option String := List.lookup i g

/-- `re.sub(pattern, "", s)`: delete every non-overlapping match, scanning
left to right.  The outer `Nat` is fuel (`s.length + 1` suffices because the
embedded patterns never match the empty string). -/
def reSubEmpty (fuel : Nat) (r : RE) : Nat → List Char → List Char
  | 0, s => s
  | n + 1, s =>
    match reMat fuel r s [] (fun rest g => some (rest, g)) with
    | some (rest, _) =>
      if rest.length = s.length then
        match s with
        | [] => []
        | c :: t => c :: reSubEmpty fuel r n t
      else reSubEmpty fuel r n rest
    | none =>
      match s with
      | [] => []
      | c :: t => c :: reSubEmpty fuel r n t

/-- Fuel bound used for all concrete pattern evaluations. -/
def FUEL : Nat := 5000

/-- `re.sub(r, "", s)` on strings. -/
def pySub (r : RE) (s : String) : String :=
  String.mk (reSubEmpty FUEL r (s.data.length + 1) s.data)

/-- A literal string of case-insensitive characters. -/
def reLit (s : String) : RE :=
  s.data.foldr (fun c acc => RE.seq (RE.chr c) acc) RE.eps

/-- The dot under `re.S`: matches any character including newline. -/
def anyC : RE := RE.cls (fun _ => true)

/-- The class `\s`. -/
def wsC : RE := RE.cls pyIsSpace

/-- Lazy plus `x+?` as `x` then lazy star. -/
def plusL (a : RE) : RE := .seq a (.starL a)

/-- Greedy plus `x+` as `x` then greedy star. -/
def plusG (a : RE) : RE := .seq a (.starG a)

/-- Greedy option `x?`. -/
def optG (a : RE) : RE := .alt a .eps

/-! ## The two compiled patterns of the source

`RE_POST_IMG` (flags `re.I | re.X | re.S`), with verbose-mode whitespace
stripped, is

  `<img.*?(?:(?:src="(?P<src>https?://.+?)"|srcset="(?P<srcset>.+?)"|sizes="(?P<sizes>.+?)")\s*)+.*?/>`

and `RE_STRIP_TAGS` (flags `re.I | re.M`) is

  `</?(img|br|p|div|ul|li|ol)[^<>]*?>`

Named groups are numbered: src = 1, srcset = 2, sizes = 3 for the first
pattern; the tag-name group of the second pattern is 1. -/

/-- The `src="(?P<src>https?://.+?)"` alternative of `RE_POST_IMG`. -/
def srcAltRE : RE :=
  .seq (reLit "src=\"")
    (.seq
      (.grp 1
        (.seq (reLit "http")
          (.seq (optG (.chr 's')) (.seq (reLit "://") (plusL anyC)))))
      (.chr '"'))

/-- The `srcset="(?P<srcset>.+?)"` alternative of `RE_POST_IMG`. -/
def srcsetAltRE : RE :=
  .seq (reLit "srcset=\"") (.seq (.grp 2 (plusL anyC)) (.chr '"'))

/-- The `sizes="(?P<sizes>.+?)"` alternative of `RE_POST_IMG`. -/
def sizesAltRE : RE :=
  .seq (reLit "sizes=\"") (.seq (.grp 3 (plusL anyC)) (.chr '"'))

/-- One `(?:(?:src=...|srcset=...|sizes=...)\s*)` repetition item. -/
def attrItemRE : RE :=
  .seq (.alt srcAltRE (.alt srcsetAltRE sizesAltRE)) (.starG wsC)

/-- The full `RE_POST_IMG` pattern. -/
def rePostImg : RE :=
  .seq (reLit "<img")
    (.seq (.starL anyC)
      (.seq (plusG attrItemRE)
        (.seq (.starL anyC) (reLit "/>"))))

/-- The `RE_STRIP_TAGS` tag-name alternation `(img|br|p|div|ul|li|ol)`. -/
def stripTagName : RE :=
  .alt (reLit "img")
    (.alt (reLit "br")
      (.alt (reLit "p")
        (.alt (reLit "div")
          (.alt (reLit "ul") (.alt (reLit "li") (reLit "ol"))))))

/-- The full `RE_STRIP_TAGS` pattern. -/
def reStripTags : RE :=
  .seq (.chr '<')
    (.seq (optG (.chr '/'))
      (.seq (.grp 1 stripTagName)
        (.seq (.starL (.cls (fun c => !(c = '<' || c = '>')))) (.chr '>'))))

/-- The three optional captures produced by a `RE_POST_IMG` match. -/
structure ImgGroups where
  src : Option String
  srcset : Option String
  sizes : Option String
deriving DecidableEq

/-- `RE_POST_IMG.search(s)` with its named groups, the heart of the spec's
`extract_first_image`: `none` when the pattern matches nowhere in `s`. -/
def imgSearch (s : String) : Option ImgGroups :=
  match reSearchAux FUEL rePostImg s.data with
  | none => none
  | some (_, g) => some ⟨groupStr g 1, groupStr g 2, groupStr g 3⟩

/-! ## Feed summary extractor (`udata_front/theme/gouvfr/__init__.py`)

`feedparser` and `dateutil` are external collaborators: the world supplies a
total `parseFeed` (feedparser never raises; an unparseable body yields a feed
with zero entries) and a fallible `parseDate` (dateutil raises on garbage).
A feed entry mirrors the fields the source reads on `post`: dict-style
`get` accesses become `Option` fields, plain index accesses (`post.title`,
`thumbnail["url"]`, `enclosure["href"]`) become total fields because
feedparser always populates them on the objects it exposes. -/

/-- An entry enclosure: `enclosure.get("type")` and `enclosure["href"]`. -/
structure Enclosure where
  mime : Option String := none
  href : String
deriving DecidableEq

/-- A parsed feed entry.  `contentValues` models `post.get("content")` as the
list of the `value` entries of its item dicts (an item without a `value` key
is `none`); `media_thumbnail` models the list of the `url` fields of
`post.get("media_thumbnail")`. -/
structure FeedEntry where
  title : String
  link : String
  published : String
  description : Option String := none
  contentValues : Option (List (Option String)) := none
  summaryField : Option String := none
  media_thumbnail : List String := []
  enclosures : List Enclosure := []
deriving DecidableEq

/-- A parsed feed. -/
structure Feed where
  entries : List FeedEntry
deriving DecidableEq

/-- Remote collaborators of `get_blog_post`. -/
structure BlogWorld where
  net : HttpReq → NetOutcome
  parseFeed : String → Feed
  parseDate : String → Except Unit Nat

/-- Configuration read by `get_blog_post`: `WP_ATOM_URL` (a URL template
containing a `lang` placeholder) and `DEFAULT_LANGUAGE`. -/
structure BlogConfig where
  wpAtomUrl : Option String
  defaultLanguage : String

/-- `WP_TIMEOUT` from the source. -/
def WP_TIMEOUT : Nat := 5

/-- `FEED_THUMBNAIL_MIMES` from the source. -/
def FEED_THUMBNAIL_MIMES : List String :=
  ["image/jpeg", "image/png", "image/webp"]

/-- `wp_atom_url.format(lang=code)`. -/
def fmtLang (tmpl code : String) : String :=
  strReplace tmpl "\x7blang\x7d" code

/-- The summary record built by `get_blog_post` (the `blogpost` dict): the
three image fields are absent when the corresponding key is never set. -/
structure BlogPost where
  title : String
  link : String
  date : Nat
  summary : String
  image_url : Option String := none
  srcset : Option String := none
  sizes : Option String := none
deriving DecidableEq

/-- The predicate of the enclosure loop:
`enclosure.get("type") in FEED_THUMBNAIL_MIMES` (a missing type is never a
member). -/
def enclosureIsImage (e : Enclosure) : Bool :=
  match e.mime with
  | some t => FEED_THUMBNAIL_MIMES.contains t
  | none => false

/-- The `for enclosure in post.get("enclosures", []): if ... break` loop:
first enclosure with an accepted image MIME type. -/
def firstImgEnclosure : List Enclosure → Option Enclosure
  | [] => none
  | e :: rest => if enclosureIsImage e then some e else firstImgEnclosure rest

/-- The resolved thumbnail fields of the `blogpost` dict. -/
structure ThumbInfo where
  image_url : String
  srcset : Option String := none
  sizes : Option String := none
deriving DecidableEq

/-- `.replace("&amp;", "&")`. -/
def ampUnescape (s : String) : String := strReplace s "&amp;" "&"

/-- Thumbnail resolution of `get_blog_post` (source lines 164-181): the
media-thumbnail loop, then the enclosure loop, then the `RE_POST_IMG` search
over the content text.  `content` is the `content`-or-`description` value
computed earlier by the function; when both were absent it is `None` and
`RE_POST_IMG.search(None)` raises `TypeError`.  When the regex matches
without its `src` group (e.g. an image tag with only `srcset`),
`match.group("src").replace(...)` raises `AttributeError` on `None`. -/
def resolveThumb (post : FeedEntry) (content : Option String) :
    Except PyExc (Option ThumbInfo) :=
  match post.media_thumbnail with
  | u :: _ => .ok (some ⟨u, none, none⟩)
  | [] =>
    match firstImgEnclosure post.enclosures with
    | some e => .ok (some ⟨e.href, none, none⟩)
    | none =>
      match content with
      | none => .error .typeExc
      | some txt =>
        match imgSearch txt with
        | none => .ok none
        | some m =>
          match m.src with
          | none => .error .attributeExc
          | some srcv =>
            .ok (some ⟨ampUnescape srcv,
              (match m.srcset with
               | some ss => if ss = "" then none else some (ampUnescape ss)
               | none => none),
              (match m.sizes with
               | some sz => if sz = "" then none else some sz
               | none => none)⟩)

/-- Lines 156-183 of the source: build the summary record for `post`, the
first entry of the selected feed.  Follows the evaluation order of the code:
`parse(post.published)` inside the dict literal, then the
content/description resolution, the `summary` override, the
`RE_STRIP_TAGS` strip of the shown text, and finally thumbnail
resolution. -/
def summarizeEntry (w : BlogWorld) (post : FeedEntry) : Except PyExc BlogPost :=
  match w.parseDate post.published with
  | .error _ => .error .valueExc
  | .ok d =>
    match post.contentValues.getD [none] with
    | [] => .error .indexExc
    | v0 :: _ =>
      let content : Option String :=
        match v0 with
        | some v => if v = "" then post.description else some v
        | none => post.description
      let summaryv : Option String :=
        match post.summaryField with
        | some s => some s
        | none => content
      match summaryv with
      | none => .error .typeExc
      | some sv =>
        let summaryText := pyStrip (pySub reStripTags sv)
        match resolveThumb post content with
        | .error e => .error e
        | .ok none => .ok ⟨post.title, post.link, d, summaryText, none, none, none⟩
        | .ok (some t) =>
          .ok ⟨post.title, post.link, d, summaryText, some t.image_url, t.srcset, t.sizes⟩

/-- Lines 153-156 ff.: `if not feed or len(feed.entries) <= 0: return`, else
summarize `feed.entries[0]`. -/
def feedFinish (w : BlogWorld) (feed : Feed) : Except PyExc (Option BlogPost) :=
  match feed.entries with
  | [] => .ok none
  | e :: _ => (summarizeEntry w e).map some

/-- `get_blog_post(lang)`: the two-attempt fetch loop over
`(lang, DEFAULT_LANGUAGE)` followed by summarization of the first entry of
the feed left in the `feed` variable.  The second component is the trace of
HTTP requests issued.  The per-language iteration: fetch with
`timeout=WP_TIMEOUT`; on a transport exception continue to the next
language; otherwise parse the body (regardless of status code, as the source
does) and stop early when the parsed feed has entries. -/
def getBlogPost (w : BlogWorld) (cfg : BlogConfig) (lang : String) :
    Except PyExc (Option BlogPost) × List HttpReq :=
  match cfg.wpAtomUrl with
  | none => (.ok none, [])
  | some tmpl =>
    if tmpl = "" then (.ok none, [])
    else
      let req1 : HttpReq := ⟨.get, fmtLang tmpl lang, some WP_TIMEOUT⟩
      let req2 : HttpReq := ⟨.get, fmtLang tmpl cfg.defaultLanguage, some WP_TIMEOUT⟩
      match w.net req1 with
      | .resp _ body1 =>
        let f1 := w.parseFeed body1
        if f1.entries.length > 0 then (feedFinish w f1, [req1])
        else
          match w.net req2 with
          | .resp _ body2 => (feedFinish w (w.parseFeed body2), [req1, req2])
          | .exn => (feedFinish w f1, [req1, req2])
      | .exn =>
        match w.net req2 with
        | .resp _ body2 => (feedFinish w (w.parseFeed body2), [req1, req2])
        | .exn => (.ok none, [req1, req2])

/-! ## Page content fetcher (`udata_front/views/gouvfr.py`) -/

/-- Configuration read by `get_pages_gh_urls`: `PAGES_GH_REPO_NAME` and
`PAGES_REPO_BRANCH` (`config.get` with default "master": the default applies
only when the key is missing, with no truthiness check). -/
structure PagesConfig where
  repo : Option String
  branch : Option String
deriving DecidableEq

/-- Remote collaborator of the page fetcher. -/
structure PageWorld where
  net : HttpReq → NetOutcome

/-- The fallback-tier cache (`cache.get` / `cache.set` with no timeout). -/
def CacheF : Type := String → Option String

/-- `cache.set(key, value)`. -/
def cacheSet (c : CacheF) (k v : String) : CacheF :=
  fun x => if x = k then some v else c x

/-- An operation performed on the fallback-tier cache. -/
inductive CacheOp where
  | read (k : String)
  | write (k : String) (v : String)
deriving DecidableEq

/-- `get_pages_gh_urls(slug, locale)`: abort(404) when the configured repo
name is falsy; otherwise build `(raw_url, gh_url)`.  The `if locale:` test is
Python truthiness, so an empty-string locale takes the unlocalized branch.
Note the asymmetry of the source: a truthy locale is inserted into
`raw_url` but never into `gh_url`. -/
def getPagesGhUrls (cfg : PagesConfig) (slug : String) (locale : Option String) :
    Except PyExc (String × String) :=
  match cfg.repo with
  | none => .error (.httpAbort 404)
  | some repo =>
    if repo = "" then .error (.httpAbort 404)
    else
      let branch := cfg.branch.getD "master"
      match locale with
      | some l =>
        if l = "" then
          .ok ("https://raw.githubusercontent.com/" ++ repo ++ "/" ++ branch ++ "/pages/" ++ slug,
               "https://github.com/" ++ repo ++ "/blob/" ++ branch ++ "/pages/" ++ slug)
        else
          .ok ("https://raw.githubusercontent.com/" ++ repo ++ "/" ++ branch ++ "/pages/" ++ l ++ "/" ++ slug,
               "https://github.com/" ++ repo ++ "/blob/" ++ branch ++ "/pages/" ++ slug)
      | none =>
        .ok ("https://raw.githubusercontent.com/" ++ repo ++ "/" ++ branch ++ "/pages/" ++ slug,
             "https://github.com/" ++ repo ++ "/blob/" ++ branch ++ "/pages/" ++ slug)

/-- `detect_pages_extension(raw_url)`: a HEAD probe of the `.md` variant with
no timeout argument; "md" exactly on status 200, otherwise "html".  A
transport exception from `requests.head` propagates (as a
`RequestException`) to the caller.  The second component is the request
trace. -/
def detectPagesExtension (w : PageWorld) (raw_url : String) :
    Except PyExc String × List HttpReq :=
  let req : HttpReq := ⟨.head, raw_url ++ ".md", none⟩
  match w.net req with
  | .resp status _ => (.ok (if status = 200 then "md" else "html"), [req])
  | .exn => (.error .requestExc, [req])

/-- The fallback-tier cache key
`"pages-content-{slug}-{locale}"` with `"default"` substituted for a missing
locale. -/
def cacheKey (slug : String) (locale : Option String) : String :=
  "pages-content-" ++ slug ++ "-" ++ (match locale with
    | none => "default"
    | some l => l)

/-- Everything observable about one `get_page_content_locale` run: its
return-or-raise outcome, the fallback cache afterwards, and the traces of
cache operations and HTTP requests. -/
structure LocaleRun where
  result : Except PyExc (Option String × String × String)
  cache : CacheF
  cacheOps : List CacheOp
  reqs : List HttpReq

/-- `get_page_content_locale(slug, locale)` (the memoized fetch function;
the short-TTL memoization wrapper is the cache collaborator's and is not
part of the function body).  Mirrors the source's `try` block: when the
extension probe raises a `RequestException`, the `except` clause runs
`cache.get(cache_key)` but the subsequent
`return content, gh_url, extension` reads the local variable `extension`,
which was never assigned — an `UnboundLocalError` propagates.  When the GET
raises, or `raise_for_status` fires (status in [400, 600) other than 404),
the cached value is returned; a 404 returns `None` content untouched by the
cache; otherwise the body is returned and written to the fallback tier. -/
def getPageContentLocale (w : PageWorld) (cfg : PagesConfig) (c : CacheF)
    (slug : String) (locale : Option String) : LocaleRun :=
  let key := cacheKey slug locale
  match getPagesGhUrls cfg slug locale with
  | .error e => ⟨.error e, c, [], []⟩
  | .ok (raw_url, gh_url) =>
    match detectPagesExtension w raw_url with
    | (.error _, pReqs) => ⟨.error .unboundLocal, c, [.read key], pReqs⟩
    | (.ok extension, pReqs) =>
      let raw2 := raw_url ++ "." ++ extension
      let gh2 := gh_url ++ "." ++ extension
      let req : HttpReq := ⟨.get, raw2, some 5⟩
      match w.net req with
      | .exn => ⟨.ok (c key, gh2, extension), c, [.read key], pReqs ++ [req]⟩
      | .resp status body =>
        if status = 404 then
          ⟨.ok (none, gh2, extension), c, [], pReqs ++ [req]⟩
        else if 400 ≤ status ∧ status < 600 then
          ⟨.ok (c key, gh2, extension), c, [.read key], pReqs ++ [req]⟩
        else
          ⟨.ok (some body, gh2, extension), cacheSet c key body,
            [.write key body], pReqs ++ [req]⟩

/-- Python truthiness of the `content` variable (`if content:`): absent or
empty-string content is falsy. -/
def contentTruthy : Option String → Bool
  | none => false
  | some s => !(s = "")

/-- `get_page_content(slug)`: the `for locale in [g.lang_code, None]` loop
with its `for ... else: abort(404)`.  `lang` is `g.lang_code`.  An exception
raised by `get_page_content_locale` propagates (the loop body has no
handler).  The second component is the fallback cache after the run. -/
def getPageContent (w : PageWorld) (cfg : PagesConfig) (c : CacheF)
    (slug lang : String) : Except PyExc (String × String × String) × CacheF :=
  let r1 := getPageContentLocale w cfg c slug (some lang)
  match r1.result with
  | .error e => (.error e, r1.cache)
  | .ok (c1, gh1, ext1) =>
    match c1 with
    | some s1 =>
      if s1 = "" then
        let r2 := getPageContentLocale w cfg r1.cache slug none
        match r2.result with
        | .error e => (.error e, r2.cache)
        | .ok (c2, gh2, ext2) =>
          match c2 with
          | some s2 =>
            if s2 = "" then (.error (.httpAbort 404), r2.cache)
            else (.ok (s2, gh2, ext2), r2.cache)
          | none => (.error (.httpAbort 404), r2.cache)
    else (.ok (s1, gh1, ext1), r1.cache)
    | none =>
      let r2 := getPageContentLocale w cfg r1.cache slug none
      match r2.result with
      | .error e => (.error e, r2.cache)
      | .ok (c2, gh2, ext2) =>
        match c2 with
        | some s2 =>
          if s2 = "" then (.error (.httpAbort 404), r2.cache)
          else (.ok (s2, gh2, ext2), r2.cache)
        | none => (.error (.httpAbort 404), r2.cache)

/-! ## Tagged resource resolution in `show_page` -/

/-- A domain object (dataset or reuse) with its creation time. -/
structure Obj where
  oid : Nat
  created_at : Nat
deriving DecidableEq

/-- The resource-repository collaborator for one model:
`objects.filter(slug=...).first()`, `objects.filter(id=...).first()` (which
raises `ValidationError` on a malformed identifier), and
`objects.visible().filter(tags=...)` returning the matching visible objects
in unspecified store order. -/
structure ResourceDB where
  bySlug : String → Option Obj
  byId : String → Except Unit (Option Obj)
  visibleByTags : List String → List Obj

/-- `get_object(model, id_or_slug)`: slug match first, then id match with
`ValidationError` swallowed to a non-match. -/
def get_object (db : ResourceDB) (id_or_slug : String) : Option Obj :=
  match db.bySlug id_or_slug with
  | some o => some o
  | none =>
    match db.byId id_or_slug with
    | .ok o => o
    | .error _ => none

/-- Descending-creation-time order between objects. -/
def DescOrder (a b : Obj) : Prop := b.created_at ≤ a.created_at

/-- Insert an object into a list sorted by descending creation time. -/
def insertDesc (o : Obj) : List Obj → List Obj
  | [] => [o]
  | x :: xs =>
    if x.created_at ≤ o.created_at then o :: x :: xs else x :: insertDesc o xs

/-- Sort by descending creation time: the semantics of
`order_by('-created_at')` applied by the store to the query result. -/
def sortDesc : List Obj → List Obj
  | [] => []
  | x :: xs => insertDesc x (sortDesc xs)

/-- `get_objects_from_tags(model, tags)`:
`list(objects.visible().filter(tags=tags).order_by('-created_at'))`. -/
def get_objects_from_tags (db : ResourceDB) (tags : List String) : List Obj :=
  sortDesc (db.visibleByTags tags)

/-- The per-reference loop of `show_page` for one model key: skip `None`
entries, strip whitespace, divert strings whose first four characters are
`"tag#"` into the tag list (appending `r[:4]`, i.e. the literal marker, as
the source does), and otherwise append the directly resolved object when one
is found.  Returns the direct-object list and the collected tag list, both
in iteration order. -/
def processRefs (db : ResourceDB) : List (Option String) → List Obj × List String
  | [] => ([], [])
  | none :: rest => processRefs db rest
  | some r :: rest =>
    let r2 := pyStrip r
    let p := processRefs db rest
    if pySlice4 r2 = "tag#" then (p.1, pySlice4 r2 :: p.2)
    else
      match get_object db r2 with
      | some o => (o :: p.1, p.2)
      | none => p

/-- The reference list `show_page` builds for one model key: the direct
objects, then — only when at least one tag marker was collected — the
tag-query results appended at the end. -/
def showPageRefs (db : ResourceDB) (refs : List (Option String)) : List Obj :=
  let p := processRefs db refs
  if p.2.length > 0 then p.1 ++ get_objects_from_tags db p.2 else p.1

/-! ## Helper projections and concrete collaborators used by the claims -/

/-- Raw-content URL of a `get_pages_gh_urls` result. -/
def rawOf (r : Except PyExc (String × String)) : Option String :=
  match r with
  | .ok p => some p.1
  | .error _ => none

/-- Browsable URL of a `get_pages_gh_urls` result. -/
def ghOf (r : Except PyExc (String × String)) : Option String :=
  match r with
  | .ok p => some p.2
  | .error _ => none

/-- A pages world whose HEAD probe raises a transport error while GETs
succeed. -/
def probeFailWorld : PageWorld :=
  ⟨fun req => match req.method with
    | .head => .exn
    | .get => .resp 200 "ok"⟩

/-- A pages world that answers every request with status 200. -/
def allOkWorld : PageWorld := ⟨fun _ => .resp 200 "fresh"⟩

/-- A concrete pages configuration. -/
def cfgC : PagesConfig := ⟨some "opendatateam/udata-front", none⟩

/-- The empty fallback cache. -/
def emptyCache : CacheF := fun _ => none

/-- C1: the propagation policy fails on the code.  In a world where the
extension probe (`requests.head`, issued inside the `try` block) raises a
transport error, `get_page_content_locale` neither returns a value nor a
structured not-found outcome: the `except` clause runs, but the
`return content, gh_url, extension` statement reads the never-assigned local
`extension` and an `UnboundLocalError` escapes to the caller. -/
theorem C1_bug_eval :
    (getPageContentLocale probeFailWorld cfgC emptyCache "faq" none).result
      = .error PyExc.unboundLocal := rfl

/-- C5 counterexample: on the exact fragment of the claim — an image tag
ending in `">` rather than a self-closing `"/>"` — `RE_POST_IMG` does not
match at all (the pattern ends in a mandatory literal `/>`, and the fragment
contains no `/` immediately followed by `>`), so no attributes are
extracted. -/
theorem C5_counterexample :
    imgSearch "<img src=\"http://a/b.png\" srcset=\"c 1x, d 2x\" sizes=\"100vw\">" = none := by
  decide

/-- C5 amended: the combined pattern requires a self-closing `/>`
terminator.  On the claim's fragment as written nothing is extracted; on the
same fragment written self-closing, the pattern matches and all three
attributes are extracted exactly as the claim lists them. -/
theorem C5_amended_thm :
    imgSearch "<img src=\"http://a/b.png\" srcset=\"c 1x, d 2x\" sizes=\"100vw\">" = none
    ∧ imgSearch "<img src=\"http://a/b.png\" srcset=\"c 1x, d 2x\" sizes=\"100vw\"/>"
        = some ⟨some "http://a/b.png", some "c 1x, d 2x", some "100vw"⟩ := by
  constructor
  · decide
  · decide

/-- C6 counterexample: with a configured repository, slug "s" and locale
"fr", the raw URL of `get_pages_gh_urls` contains the locale path segment
while the unlocalized call does not, so the two calls do not return the same
raw_url. -/
theorem C6_counterexample :
    rawOf (getPagesGhUrls ⟨some "r", none⟩ "s" (some "fr"))
        = some "https://raw.githubusercontent.com/r/master/pages/fr/s"
    ∧ rawOf (getPagesGhUrls ⟨some "r", none⟩ "s" none)
        = some "https://raw.githubusercontent.com/r/master/pages/s"
    ∧ ((rawOf (getPagesGhUrls ⟨some "r", none⟩ "s" (some "fr"))
          == rawOf (getPagesGhUrls ⟨some "r", none⟩ "s" none)) = false) := by
  refine ⟨rfl, rfl, by decide⟩

/-- C6 amended: `get_pages_gh_urls` returns the same gh_url for every locale
value, and the whole result coincides with the unlocalized call exactly in
the falsy-locale cases (`None` or empty string); for a truthy locale (and a
configured repository) the raw_url inserts the locale as an extra path
segment and therefore differs from the unlocalized raw_url: the
locale-specific branch is dead code only for gh_url, not for raw_url. -/
theorem C6_amended_thm (cfg : PagesConfig) (slug : String) (locale : Option String) :
    ghOf (getPagesGhUrls cfg slug locale) = ghOf (getPagesGhUrls cfg slug none)
    ∧ ((locale = none ∨ locale = some "") →
        getPagesGhUrls cfg slug locale = getPagesGhUrls cfg slug none)
    ∧ (∀ l repo, locale = some l → l ≠ "" → cfg.repo = some repo → repo ≠ "" →
        getPagesGhUrls cfg slug locale =
          .ok ("https://raw.githubusercontent.com/" ++ repo ++ "/" ++ cfg.branch.getD "master"
                ++ "/pages/" ++ l ++ "/" ++ slug,
               "https://github.com/" ++ repo ++ "/blob/" ++ cfg.branch.getD "master"
                ++ "/pages/" ++ slug)
        ∧ rawOf (getPagesGhUrls cfg slug locale) ≠ rawOf (getPagesGhUrls cfg slug none)) := by
  obtain ⟨repo?, branch?⟩ := cfg
  cases repo? with
  | none =>
    refine ⟨rfl, fun _ => rfl, ?_⟩
    intro l repo _ _ hrepo _
    exact absurd hrepo (by simp)
  | some repo =>
    by_cases hr : repo = ""
    · subst hr
      refine ⟨?_, fun _ => ?_, ?_⟩
      · simp [getPagesGhUrls, ghOf]
      · simp [getPagesGhUrls]
      · intro l repo2 _ _ hrepo _
        simp at hrepo
        subst hrepo
        simp_all
    · cases locale with
      | none => exact ⟨rfl, fun _ => rfl, by intro l repo2 h; cases h⟩
      | some l =>
        by_cases hl : l = ""
        · subst hl
          refine ⟨?_, fun _ => ?_, ?_⟩
          · simp [getPagesGhUrls, ghOf, hr]
          · simp [getPagesGhUrls, hr]
          · intro l2 repo2 hsome hne _ _
            simp at hsome
            exact absurd hsome.symm hne
        · refine ⟨?_, ?_, ?_⟩
          · simp [getPagesGhUrls, ghOf, hr, hl]
          · intro h
            rcases h with h | h
            · cases h
            · simp at h
              exact absurd h hl
          · intro l2 repo2 hsome hne hrepo _
            simp at hsome hrepo
            subst hsome
            subst hrepo
            refine ⟨by simp [getPagesGhUrls, hr, hl], ?_⟩
            intro heq
            simp [getPagesGhUrls, hr, hl, rawOf] at heq
            have hlen := congrArg String.length heq
            simp only [String.length_append] at hlen
            have hl0 : l.length ≠ 0 := by
              intro h0
              apply hl
              cases l with
              | mk d =>
                cases d with
                | nil => rfl
                | cons a b => simp [String.length] at h0
            omega

/-- C6 witness: the amended theorem applied at repository "r", slug "s",
locale "fr". -/
theorem C6_amended_witness :
    ghOf (getPagesGhUrls ⟨some "r", none⟩ "s" (some "fr"))
        = ghOf (getPagesGhUrls ⟨some "r", none⟩ "s" none)
    ∧ rawOf (getPagesGhUrls ⟨some "r", none⟩ "s" (some "fr"))
        ≠ rawOf (getPagesGhUrls ⟨some "r", none⟩ "s" none) :=
  ⟨(C6_amended_thm ⟨some "r", none⟩ "s" (some "fr")).1,
   ((C6_amended_thm ⟨some "r", none⟩ "s" (some "fr")).2.2 "fr" "r" rfl
      (by decide) rfl (by decide)).2⟩

/-- C8 counterexample: the extension-detection probe issues its HEAD request
with no timeout at all, so it is not the case that every remote call is made
with a timeout of 5. -/
theorem C8_counterexample :
    (detectPagesExtension allOkWorld
        "https://raw.githubusercontent.com/r/master/pages/s").2
      = [⟨HttpMethod.head, "https://raw.githubusercontent.com/r/master/pages/s.md", none⟩]
    ∧ ((detectPagesExtension allOkWorld
          "https://raw.githubusercontent.com/r/master/pages/s").2.all
            (fun r => r.timeout == some 5)) = false := by
  exact ⟨rfl, by decide⟩

/-- C8 amended: the feed fetches of `get_blog_post` and the page-content GET
of `get_page_content_locale` each carry their own fixed timeout of 5
(`WP_TIMEOUT` resp. the literal `timeout=5`), but the extension-detection
HEAD probe is issued with no timeout. -/
theorem C8_amended_thm :
    (∀ (w : BlogWorld) (cfg : BlogConfig) (lang : String) (req : HttpReq),
        req ∈ (getBlogPost w cfg lang).2 → req.timeout = some WP_TIMEOUT)
    ∧ (∀ (w : PageWorld) (cfg : PagesConfig) (c : CacheF) (slug : String)
          (locale : Option String) (req : HttpReq),
        req ∈ (getPageContentLocale w cfg c slug locale).reqs →
          (req.method = HttpMethod.get → req.timeout = some 5)
          ∧ (req.method = HttpMethod.head → req.timeout = none)) := by
  constructor
  · intro w cfg lang req hmem
    simp only [getBlogPost] at hmem
    repeat' split at hmem
    all_goals simp at hmem
    all_goals first
      | (subst hmem; rfl)
      | (rcases hmem with h | h <;> subst h <;> rfl)
  · intro w cfg c slug locale req hmem
    cases hpg : getPagesGhUrls cfg slug locale with
    | error e =>
      simp only [getPageContentLocale, detectPagesExtension, hpg] at hmem
      simp at hmem
    | ok p =>
      obtain ⟨raw, gh⟩ := p
      simp only [getPageContentLocale, detectPagesExtension, hpg] at hmem
      cases hh : w.net ⟨HttpMethod.head, raw ++ ".md", none⟩ with
      | exn =>
        simp only [hh] at hmem
        simp at hmem
        subst hmem
        exact ⟨(fun h => nomatch h), fun _ => rfl⟩
      | resp st bd =>
        simp only [hh] at hmem
        cases hg : w.net ⟨HttpMethod.get, raw ++ "." ++ (if st = 200 then "md" else "html"), some 5⟩ with
        | exn =>
          simp only [hg] at hmem
          simp at hmem
          rcases hmem with h | h <;> subst h
          · exact ⟨(fun h => nomatch h), fun _ => rfl⟩
          · exact ⟨(fun _ => rfl), (fun h => nomatch h)⟩
        | resp st2 bd2 =>
          simp only [hg] at hmem
          have hfin : req = (⟨HttpMethod.head, raw ++ ".md", none⟩ : HttpReq)
              ∨ req = (⟨HttpMethod.get, raw ++ "." ++ (if st = 200 then "md" else "html"),
                        some 5⟩ : HttpReq) := by
            by_cases h404 : st2 = 404
            · simp only [if_pos h404] at hmem
              simpa using hmem
            · simp only [if_neg h404] at hmem
              by_cases herr : 400 ≤ st2 ∧ st2 < 600
              · simp only [if_pos herr] at hmem
                simpa using hmem
              · simp only [if_neg herr] at hmem
                simpa using hmem
          rcases hfin with h | h <;> subst h
          · exact ⟨(fun h => nomatch h), fun _ => rfl⟩
          · exact ⟨(fun _ => rfl), (fun h => nomatch h)⟩

/-- C8 witness: the amended theorem applied to the concrete page-content GET
request issued in the all-successful world. -/
theorem C8_amended_witness :
    ((⟨HttpMethod.get,
        "https://raw.githubusercontent.com/opendatateam/udata-front/master/pages/s.md",
        some 5⟩ : HttpReq).timeout = some 5) :=
  (C8_amended_thm.2 allOkWorld cfgC emptyCache "s" none
      ⟨HttpMethod.get,
        "https://raw.githubusercontent.com/opendatateam/udata-front/master/pages/s.md",
        some 5⟩
      (by decide)).1 rfl

/-! ## C9: ordering of the resolved reference list -/

/-- Membership in an insertion. -/
lemma mem_insertDesc {y o : Obj} {l : List Obj} :
    y ∈ insertDesc o l ↔ y = o ∨ y ∈ l := by
  induction l with
  | nil => simp [insertDesc]
  | cons x xs ih =>
    simp only [insertDesc]
    by_cases h : x.created_at ≤ o.created_at
    · simp [h]
    · simp [h, ih]
      tauto

/-- Insertion preserves descending sortedness. -/
lemma pairwise_insertDesc (o : Obj) (l : List Obj)
    (h : l.Pairwise DescOrder) : (insertDesc o l).Pairwise DescOrder := by
  induction l with
  | nil => simp [insertDesc, List.Pairwise]
  | cons x xs ih =>
    rcases List.pairwise_cons.mp h with ⟨hx, hxs⟩
    by_cases hcmp : x.created_at ≤ o.created_at
    · simp only [insertDesc, if_pos hcmp]
      refine List.pairwise_cons.mpr ⟨?_, h⟩
      intro y hy
      rcases List.mem_cons.mp hy with rfl | hy2
      · exact hcmp
      · exact le_trans (hx y hy2) hcmp
    · simp only [insertDesc, if_neg hcmp]
      refine List.pairwise_cons.mpr ⟨?_, ih hxs⟩
      intro y hy
      rcases mem_insertDesc.mp hy with rfl | hy2
      · exact le_of_not_le hcmp
      · exact hx y hy2

/-- The result of `sortDesc` is sorted by descending creation time. -/
lemma pairwise_sortDesc (l : List Obj) : (sortDesc l).Pairwise DescOrder := by
  induction l with
  | nil => simp [sortDesc]
  | cons x xs ih => exact pairwise_insertDesc x _ ih

/-- Declarative form of one loop iteration of `show_page`: the object a
front-matter reference resolves to directly (`none` for null entries, tag
markers and unresolved identifiers). -/
def directResolve (db : ResourceDB) : Option String → Option Obj
  | none => none
  | some r =>
    if pySlice4 (pyStrip r) = "tag#" then none else get_object db (pyStrip r)

/-- Declarative form of the tag collection: the marker recorded for a
front-matter reference (`r[:4]`, for entries that are tag references). -/
def tagOf : Option String → Option String
  | none => none
  | some r =>
    if pySlice4 (pyStrip r) = "tag#" then some (pySlice4 (pyStrip r)) else none

/-- The imperative reference loop computes exactly the two in-order
filterMaps. -/
lemma processRefs_eq (db : ResourceDB) (refs : List (Option String)) :
    processRefs db refs = (refs.filterMap (directResolve db), refs.filterMap tagOf) := by
  induction refs with
  | nil => rfl
  | cons r rest ih =>
    cases r with
    | none => simp [processRefs, List.filterMap_cons, directResolve, tagOf, ih]
    | some s =>
      simp only [processRefs, ih, List.filterMap_cons]
      by_cases ht : pySlice4 (pyStrip s) = "tag#"
      · simp [directResolve, tagOf, ht]
      · cases ho : get_object db (pyStrip s) with
        | none => simp [directResolve, tagOf, ht, ho]
        | some o => simp [directResolve, tagOf, ht, ho]

/-- C9: for each resource kind, the list `show_page` produces is the
directly resolved objects in front-matter order, followed (exactly when some
tag marker was collected) by the tag-derived objects sorted by descending
creation time, with the two groups concatenated as they are — no
de-duplication; and every tag-derived segment is sorted by descending
creation time. -/
theorem C9_thm (db : ResourceDB) (refs : List (Option String)) :
    showPageRefs db refs =
      refs.filterMap (directResolve db)
        ++ (if (refs.filterMap tagOf).length > 0
            then get_objects_from_tags db (refs.filterMap tagOf) else [])
    ∧ (∀ tags : List String, (get_objects_from_tags db tags).Pairwise DescOrder) := by
  constructor
  · simp only [showPageRefs, processRefs_eq]
    by_cases h : (refs.filterMap tagOf).length > 0
    · simp [h]
    · simp [h]
  · intro tags
    exact pairwise_sortDesc _

/-! ## C3: thumbnail resolution priority -/

/-- C3: thumbnail resolution is strictly priority-ordered with first success
winning.  (1) A non-empty media-thumbnail list always wins: its first URL is
chosen whatever the enclosures and content hold.  (2) The enclosure loop
picks exactly the first enclosure with an accepted MIME type
(`List.find?`).  (3) With no media-thumbnail and a matching enclosure, that
enclosure's URL is chosen over any inline image.  (4) Only otherwise is the
`RE_POST_IMG` search over the content text used: no match means no
thumbnail, and a match with a `src` group yields its (entity-unescaped) URL. -/
theorem C3_thm :
    (∀ (post : FeedEntry) (content : Option String) (u : String) (rest : List String),
        post.media_thumbnail = u :: rest →
        resolveThumb post content = .ok (some ⟨u, none, none⟩))
    ∧ (∀ l : List Enclosure, firstImgEnclosure l = l.find? enclosureIsImage)
    ∧ (∀ (post : FeedEntry) (content : Option String) (e : Enclosure),
        post.media_thumbnail = [] →
        firstImgEnclosure post.enclosures = some e →
        resolveThumb post content = .ok (some ⟨e.href, none, none⟩))
    ∧ (∀ (post : FeedEntry) (txt : String),
        post.media_thumbnail = [] →
        firstImgEnclosure post.enclosures = none →
        (imgSearch txt = none → resolveThumb post (some txt) = .ok none)
        ∧ (∀ (m : ImgGroups) (srcv : String),
            imgSearch txt = some m → m.src = some srcv →
            ∃ t : ThumbInfo, resolveThumb post (some txt) = .ok (some t)
              ∧ t.image_url = ampUnescape srcv)) := by
  refine ⟨?_, ?_, ?_, ?_⟩
  · intro post content u rest h
    simp [resolveThumb, h]
  · intro l
    induction l with
    | nil => rfl
    | cons e rest ih =>
      by_cases he : enclosureIsImage e
      · simp [firstImgEnclosure, List.find?, he]
      · simp [firstImgEnclosure, List.find?, he, ih]
  · intro post content e h1 h2
    simp [resolveThumb, h1, h2]
  · intro post txt h1 h2
    constructor
    · intro hs
      simp [resolveThumb, h1, h2, hs]
    · intro m srcv hm hsrc
      exact ⟨⟨ampUnescape srcv,
        (match m.srcset with
         | some ss => if ss = "" then none else some (ampUnescape ss)
         | none => none),
        (match m.sizes with
         | some sz => if sz = "" then none else some sz
         | none => none)⟩,
        by simp [resolveThumb, h1, h2, hm, hsrc], rfl⟩

/-- A feed entry carrying all three thumbnail sources at once. -/
def entC3a : FeedEntry :=
  { title := "t", link := "l", published := "p",
    media_thumbnail := ["http://media/a.png", "http://media/b.png"],
    enclosures := [⟨some "image/png", "http://enc/a.png"⟩] }

/-- A feed entry with enclosures (the first of image type being the webp)
and an inline image but no media-thumbnail. -/
def entC3b : FeedEntry :=
  { title := "t", link := "l", published := "p",
    enclosures := [⟨some "text/html", "http://enc/x"⟩,
                   ⟨some "image/webp", "http://enc/b.webp"⟩,
                   ⟨some "image/png", "http://enc/c.png"⟩] }

/-- C3 witness: the priority theorem applied to entries where lower tiers
are also populated. -/
theorem C3_witness :
    resolveThumb entC3a (some "<img src=\"http://inline/i.png\"/>")
      = .ok (some ⟨"http://media/a.png", none, none⟩)
    ∧ resolveThumb entC3b (some "<img src=\"http://inline/i.png\"/>")
      = .ok (some ⟨"http://enc/b.webp", none, none⟩) :=
  ⟨C3_thm.1 entC3a (some "<img src=\"http://inline/i.png\"/>")
      "http://media/a.png" ["http://media/b.png"] rfl,
   C3_thm.2.2.1 entC3b (some "<img src=\"http://inline/i.png\"/>")
      ⟨some "image/webp", "http://enc/b.webp"⟩ rfl rfl⟩

/-! ## C10: responsive-image fields only come from the inline-image tier -/

/-- A summary produced by `feedFinish` comes from summarizing the first
entry. -/
lemma feedFinish_ok_some (w : BlogWorld) (f : Feed) (bp : BlogPost)
    (h : feedFinish w f = .ok (some bp)) :
    ∃ e, summarizeEntry w e = .ok bp := by
  unfold feedFinish at h
  cases hf : f.entries with
  | nil => simp [hf] at h
  | cons e es =>
    simp only [hf] at h
    cases hse : summarizeEntry w e with
    | error ex => rw [hse] at h; simp [Except.map] at h
    | ok b =>
      rw [hse] at h
      simp [Except.map] at h
      exact ⟨e, by rw [hse, h]⟩

/-- Every summary `get_blog_post` returns is the summary of some feed
entry. -/
lemma getBlogPost_ok_some (w : BlogWorld) (cfg : BlogConfig) (lang : String)
    (bp : BlogPost) (h : (getBlogPost w cfg lang).1 = .ok (some bp)) :
    ∃ e, summarizeEntry w e = .ok bp := by
  simp only [getBlogPost] at h
  repeat' split at h
  all_goals simp at h
  all_goals exact feedFinish_ok_some _ _ _ h

/-- Helper for `summarize_thumb`: the final record-building match of
`summarizeEntry` relates the summary's image fields to the thumbnail
resolution. -/
lemma mkRecord_thumb (e : FeedEntry) (bp : BlogPost) (d : Nat) (sv : String)
    (content : Option String)
    (h : (match resolveThumb e content with
          | .error ex => (.error ex : Except PyExc BlogPost)
          | .ok none =>
            .ok ⟨e.title, e.link, d, pyStrip (pySub reStripTags sv), none, none, none⟩
          | .ok (some t) =>
            .ok ⟨e.title, e.link, d, pyStrip (pySub reStripTags sv),
                 some t.image_url, t.srcset, t.sizes⟩) = .ok bp) :
    (resolveThumb e content = .ok none ∧ bp.srcset = none ∧ bp.sizes = none)
    ∨ (∃ t, resolveThumb e content = .ok (some t)
        ∧ bp.srcset = t.srcset ∧ bp.sizes = t.sizes) := by
  cases hrt : resolveThumb e content with
  | error ex => rw [hrt] at h; simp at h
  | ok topt =>
    rw [hrt] at h
    cases topt with
    | none =>
      simp at h
      exact Or.inl ⟨rfl, by rw [← h], by rw [← h]⟩
    | some t =>
      simp at h
      exact Or.inr ⟨t, rfl, by rw [← h], by rw [← h]⟩

/-- The image fields of a summary are exactly those of its thumbnail
resolution. -/
lemma summarize_thumb (w : BlogWorld) (e : FeedEntry) (bp : BlogPost)
    (h : summarizeEntry w e = .ok bp) :
    ∃ content : Option String,
      (resolveThumb e content = .ok none ∧ bp.srcset = none ∧ bp.sizes = none)
      ∨ (∃ t : ThumbInfo, resolveThumb e content = .ok (some t)
          ∧ bp.srcset = t.srcset ∧ bp.sizes = t.sizes) := by
  unfold summarizeEntry at h
  cases hd : w.parseDate e.published with
  | error u => simp only [hd] at h; simp at h
  | ok d =>
    simp only [hd] at h
    cases hcv : e.contentValues.getD [none] with
    | nil => simp only [hcv] at h; simp at h
    | cons v0 vs =>
      simp only [hcv] at h
      cases hv0 : v0 with
      | none =>
        simp only [hv0] at h
        cases hsf : e.summaryField with
        | some s =>
          simp only [hsf] at h
          exact ⟨e.description, mkRecord_thumb e bp d s e.description h⟩
        | none =>
          simp only [hsf] at h
          cases hde : e.description with
          | none => simp only [hde] at h; simp at h
          | some sv =>
            simp only [hde] at h
            exact ⟨some sv, mkRecord_thumb e bp d sv (some sv) h⟩
      | some v =>
        simp only [hv0] at h
        by_cases hve : v = ""
        · subst hve
          simp only [reduceIte] at h
          cases hsf : e.summaryField with
          | some s =>
            simp only [hsf] at h
            exact ⟨e.description, mkRecord_thumb e bp d s e.description h⟩
          | none =>
            simp only [hsf] at h
            cases hde : e.description with
            | none => simp only [hde] at h; simp at h
            | some sv =>
              simp only [hde] at h
              exact ⟨some sv, mkRecord_thumb e bp d sv (some sv) h⟩
        · rw [if_neg hve] at h
          cases hsf : e.summaryField with
          | some s =>
            simp only [hsf] at h
            exact ⟨some v, mkRecord_thumb e bp d s (some v) h⟩
          | none =>
            simp only [hsf] at h
            exact ⟨some v, mkRecord_thumb e bp d v (some v) h⟩

/-- A thumbnail with a responsive-image field cannot come from the
media-thumbnail tier or the enclosure tier. -/
lemma resolveThumb_fields (e : FeedEntry) (content : Option String) (t : ThumbInfo)
    (h : resolveThumb e content = .ok (some t))
    (hs : t.srcset.isSome ∨ t.sizes.isSome) :
    e.media_thumbnail = [] ∧ firstImgEnclosure e.enclosures = none := by
  cases hm : e.media_thumbnail with
  | cons u rest =>
    simp [resolveThumb, hm] at h
    subst h
    simp at hs
  | nil =>
    cases he : firstImgEnclosure e.enclosures with
    | some enc =>
      simp [resolveThumb, hm, he] at h
      subst h
      simp at hs
    | none => exact ⟨rfl, rfl⟩

/-- C10: whenever a summary returned by `get_blog_post` carries a `srcset`
or `sizes` field, its thumbnail was resolved by the third tier: the entry it
summarizes has an empty media-thumbnail list and no accepted-MIME enclosure,
so the image came from the `RE_POST_IMG` search of the content text. -/
theorem C10_thm (w : BlogWorld) (cfg : BlogConfig) (lang : String) (bp : BlogPost)
    (h : (getBlogPost w cfg lang).1 = .ok (some bp))
    (hs : bp.srcset.isSome ∨ bp.sizes.isSome) :
    ∃ e : FeedEntry, summarizeEntry w e = .ok bp
      ∧ e.media_thumbnail = [] ∧ firstImgEnclosure e.enclosures = none := by
  obtain ⟨e, hse⟩ := getBlogPost_ok_some w cfg lang bp h
  obtain ⟨content, hca⟩ := summarize_thumb w e bp hse
  rcases hca with ⟨hrt, hs1, hs2⟩ | ⟨t, hrt, hs1, hs2⟩
  · rw [hs1, hs2] at hs
    simp at hs
  · have hfields := resolveThumb_fields e content t hrt (by rw [hs1, hs2] at hs; exact hs)
    exact ⟨e, hse, hfields⟩

/-- The feed entry of the C10 witness: no media-thumbnail, no enclosures, an
inline image with a `srcset` attribute in its content. -/
def entC10 : FeedEntry :=
  { title := "t", link := "l", published := "p",
    contentValues := some [some "<img src=\"http://a/b\" srcset=\"u 1x\"/>"],
    summaryField := some "s" }

/-- The blog world of the C10 witness. -/
def wC10 : BlogWorld :=
  { net := fun _ => .resp 200 "xml",
    parseFeed := fun _ => ⟨[entC10]⟩,
    parseDate := fun _ => .ok 0 }

/-- The configuration of the C10 witness. -/
def cfgC10 : BlogConfig := ⟨some "http://feed/\x7blang\x7d", "en"⟩

/-- The summary the C10 witness world produces. -/
def bpC10 : BlogPost := ⟨"t", "l", 0, "s", some "http://a/b", some "u 1x", none⟩

/-- C10 witness: the theorem applied in a concrete world whose feed entry
resolves its thumbnail from the inline image. -/
theorem C10_witness :
    ∃ e : FeedEntry, summarizeEntry wC10 e = .ok bpC10
      ∧ e.media_thumbnail = [] ∧ firstImgEnclosure e.enclosures = none :=
  C10_thm wC10 cfgC10 "en" bpC10 (by rfl) (Or.inl rfl)

/-! ## Per-branch characterization of `get_page_content_locale` -/

/-- Probe transport failure: the fallback cache is read but the function
raises `UnboundLocalError` instead of returning. -/
lemma localeRun_probeExn (w : PageWorld) (cfg : PagesConfig) (c : CacheF)
    (slug : String) (locale : Option String) (raw gh : String)
    (h1 : getPagesGhUrls cfg slug locale = .ok (raw, gh))
    (h2 : w.net ⟨HttpMethod.head, raw ++ ".md", none⟩ = .exn) :
    (getPageContentLocale w cfg c slug locale).result = .error PyExc.unboundLocal
    ∧ (getPageContentLocale w cfg c slug locale).cacheOps
        = [CacheOp.read (cacheKey slug locale)]
    ∧ (getPageContentLocale w cfg c slug locale).cache = c := by
  simp only [getPageContentLocale, detectPagesExtension, h1, h2]
  simp

/-- GET transport failure after a successful probe: the cached value for the
exact key is returned, the only cache operation is that read, and the cache
is unchanged. -/
lemma localeRun_fetchExn (w : PageWorld) (cfg : PagesConfig) (c : CacheF)
    (slug : String) (locale : Option String) (raw gh ext : String) (st0 : Nat) (bd0 : String)
    (h1 : getPagesGhUrls cfg slug locale = .ok (raw, gh))
    (h2 : w.net ⟨HttpMethod.head, raw ++ ".md", none⟩ = .resp st0 bd0)
    (hext : ext = (if st0 = 200 then "md" else "html"))
    (h3 : w.net ⟨HttpMethod.get, raw ++ "." ++ ext, some 5⟩ = .exn) :
    (getPageContentLocale w cfg c slug locale).result
        = .ok (c (cacheKey slug locale), gh ++ "." ++ ext, ext)
    ∧ (getPageContentLocale w cfg c slug locale).cacheOps
        = [CacheOp.read (cacheKey slug locale)]
    ∧ (getPageContentLocale w cfg c slug locale).cache = c := by
  subst hext
  simp only [getPageContentLocale, detectPagesExtension, h1, h2, h3]
  simp

/-- HTTP error status in [400, 600) other than 404 (`raise_for_status`
fires): identical to a transport failure. -/
lemma localeRun_httpError (w : PageWorld) (cfg : PagesConfig) (c : CacheF)
    (slug : String) (locale : Option String) (raw gh ext : String)
    (st0 st1 : Nat) (bd0 bd1 : String)
    (h1 : getPagesGhUrls cfg slug locale = .ok (raw, gh))
    (h2 : w.net ⟨HttpMethod.head, raw ++ ".md", none⟩ = .resp st0 bd0)
    (hext : ext = (if st0 = 200 then "md" else "html"))
    (h3 : w.net ⟨HttpMethod.get, raw ++ "." ++ ext, some 5⟩ = .resp st1 bd1)
    (h404 : st1 ≠ 404) (hlo : 400 ≤ st1) (hhi : st1 < 600) :
    (getPageContentLocale w cfg c slug locale).result
        = .ok (c (cacheKey slug locale), gh ++ "." ++ ext, ext)
    ∧ (getPageContentLocale w cfg c slug locale).cacheOps
        = [CacheOp.read (cacheKey slug locale)]
    ∧ (getPageContentLocale w cfg c slug locale).cache = c := by
  subst hext
  simp only [getPageContentLocale, detectPagesExtension, h1, h2, h3,
    if_neg h404, if_pos (And.intro hlo hhi)]
  simp

/-- 404 from the GET: `None` content is returned immediately, the fallback
cache is neither read nor written, and the cache is unchanged. -/
lemma localeRun_notFound (w : PageWorld) (cfg : PagesConfig) (c : CacheF)
    (slug : String) (locale : Option String) (raw gh ext : String)
    (st0 : Nat) (bd0 bd1 : String)
    (h1 : getPagesGhUrls cfg slug locale = .ok (raw, gh))
    (h2 : w.net ⟨HttpMethod.head, raw ++ ".md", none⟩ = .resp st0 bd0)
    (hext : ext = (if st0 = 200 then "md" else "html"))
    (h3 : w.net ⟨HttpMethod.get, raw ++ "." ++ ext, some 5⟩ = .resp 404 bd1) :
    (getPageContentLocale w cfg c slug locale).result = .ok (none, gh ++ "." ++ ext, ext)
    ∧ (getPageContentLocale w cfg c slug locale).cacheOps = []
    ∧ (getPageContentLocale w cfg c slug locale).cache = c := by
  subst hext
  simp only [getPageContentLocale, detectPagesExtension, h1, h2, h3, if_pos rfl]
  simp

/-- Successful fetch (status neither 404 nor in [400, 600)): the body is
returned, written to the fallback tier under the exact key, and the cache is
never read. -/
lemma localeRun_success (w : PageWorld) (cfg : PagesConfig) (c : CacheF)
    (slug : String) (locale : Option String) (raw gh ext : String)
    (st0 st1 : Nat) (bd0 bd1 : String)
    (h1 : getPagesGhUrls cfg slug locale = .ok (raw, gh))
    (h2 : w.net ⟨HttpMethod.head, raw ++ ".md", none⟩ = .resp st0 bd0)
    (hext : ext = (if st0 = 200 then "md" else "html"))
    (h3 : w.net ⟨HttpMethod.get, raw ++ "." ++ ext, some 5⟩ = .resp st1 bd1)
    (h404 : st1 ≠ 404) (herr : ¬(400 ≤ st1 ∧ st1 < 600)) :
    (getPageContentLocale w cfg c slug locale).result
        = .ok (some bd1, gh ++ "." ++ ext, ext)
    ∧ (getPageContentLocale w cfg c slug locale).cacheOps
        = [CacheOp.write (cacheKey slug locale) bd1]
    ∧ (getPageContentLocale w cfg c slug locale).cache
        = cacheSet c (cacheKey slug locale) bd1 := by
  subst hext
  simp only [getPageContentLocale, detectPagesExtension, h1, h2, h3,
    if_neg h404, if_neg herr]
  simp

/-- C7: a 404 from the remote for the preferred locale makes
`get_page_content_locale` return null content immediately with no fallback
cache operation at all; and `get_page_content` still attempts the
unlocalized variant afterwards: if that second attempt yields (truthy)
content the page is served from it, and only if it too yields null content
is the not-found outcome (abort 404) surfaced. -/
theorem C7_thm :
    (∀ (w : PageWorld) (cfg : PagesConfig) (c : CacheF) (slug : String)
        (locale : Option String) (raw gh ext : String) (st0 : Nat) (bd0 bd1 : String),
      getPagesGhUrls cfg slug locale = .ok (raw, gh) →
      w.net ⟨HttpMethod.head, raw ++ ".md", none⟩ = .resp st0 bd0 →
      ext = (if st0 = 200 then "md" else "html") →
      w.net ⟨HttpMethod.get, raw ++ "." ++ ext, some 5⟩ = .resp 404 bd1 →
      (getPageContentLocale w cfg c slug locale).result = .ok (none, gh ++ "." ++ ext, ext)
      ∧ (getPageContentLocale w cfg c slug locale).cacheOps = [])
    ∧ (∀ (w : PageWorld) (cfg : PagesConfig) (c : CacheF) (slug lang : String)
        (gh1 ext1 s2 gh2 ext2 : String),
      (getPageContentLocale w cfg c slug (some lang)).result = .ok (none, gh1, ext1) →
      (getPageContentLocale w cfg (getPageContentLocale w cfg c slug (some lang)).cache
          slug none).result = .ok (some s2, gh2, ext2) →
      s2 ≠ "" →
      (getPageContent w cfg c slug lang).1 = .ok (s2, gh2, ext2))
    ∧ (∀ (w : PageWorld) (cfg : PagesConfig) (c : CacheF) (slug lang : String)
        (gh1 ext1 gh2 ext2 : String),
      (getPageContentLocale w cfg c slug (some lang)).result = .ok (none, gh1, ext1) →
      (getPageContentLocale w cfg (getPageContentLocale w cfg c slug (some lang)).cache
          slug none).result = .ok (none, gh2, ext2) →
      (getPageContent w cfg c slug lang).1 = .error (PyExc.httpAbort 404)) := by
  refine ⟨?_, ?_, ?_⟩
  · intro w cfg c slug locale raw gh ext st0 bd0 bd1 h1 h2 hext h3
    exact ⟨(localeRun_notFound w cfg c slug locale raw gh ext st0 bd0 bd1 h1 h2 hext h3).1,
           (localeRun_notFound w cfg c slug locale raw gh ext st0 bd0 bd1 h1 h2 hext h3).2.1⟩
  · intro w cfg c slug lang gh1 ext1 s2 gh2 ext2 h1 h2 hs2
    simp only [getPageContent, h1, h2]
    simp [hs2]
  · intro w cfg c slug lang gh1 ext1 gh2 ext2 h1 h2
    simp only [getPageContent, h1, h2]

/-- The pages world of the C7 witness: the HEAD probe reports 200
everywhere, the GET finds only the unlocalized page. -/
def wC7 : PageWorld :=
  ⟨fun req =>
    match req.method with
    | .head => .resp 200 ""
    | .get =>
      if req.url = "https://raw.githubusercontent.com/opendatateam/udata-front/master/pages/s.md"
      then .resp 200 "hello" else .resp 404 ""⟩

/-- C7 witness: with a 404 for the "fr" locale and content for the
unlocalized path, `get_page_content` serves the unlocalized content. -/
theorem C7_witness :
    (getPageContent wC7 cfgC emptyCache "s" "fr").1
      = .ok ("hello",
          "https://github.com/opendatateam/udata-front/blob/master/pages/s" ++ "." ++ "md",
          "md") :=
  C7_thm.2.1 wC7 cfgC emptyCache "s" "fr"
    ("https://github.com/opendatateam/udata-front/blob/master/pages/s" ++ "." ++ "md") "md"
    "hello"
    ("https://github.com/opendatateam/udata-front/blob/master/pages/s" ++ "." ++ "md") "md"
    (by rfl) (by rfl) (by decide)

/-- The fallback cache of the C2 counterexample, holding a previously
fetched body for the exact key. -/
def cacheWithOld : CacheF := cacheSet emptyCache (cacheKey "faq" none) "old-body"

/-- C2 counterexample: in a run where the extension probe raises a transport
error (so no page fetch is ever issued, let alone fails), the fallback tier
is nevertheless read for the key — and the stored body is not returned:
the run ends in an `UnboundLocalError` instead.  This falsifies both the
"exactly when the remote fetch fails" reading discipline and the
"returning whatever is stored there" clause of the claim. -/
theorem C2_counterexample :
    (getPageContentLocale probeFailWorld cfgC cacheWithOld "faq" none).cacheOps
      = [CacheOp.read (cacheKey "faq" none)]
    ∧ (getPageContentLocale probeFailWorld cfgC cacheWithOld "faq" none).result
      = .error PyExc.unboundLocal :=
  ⟨rfl, rfl⟩

/-- C2 amended: when the extension probe succeeds, the fallback tier is read
(for the exact slug+locale key) exactly when the GET fails with a transport
exception or a `raise_for_status` error status (in [400, 600), not 404),
and the stored value is returned; every successful fetch writes the body to
the fallback tier without consulting it; when the probe itself fails with a
transport error, the tier is read but an `UnboundLocalError` propagates
instead of a return.  Consequently, for a key previously fetched
successfully, a later run whose probe succeeds and whose GET fails returns
the previously cached body. -/
theorem C2_amended_thm :
    (∀ (w : PageWorld) (cfg : PagesConfig) (c : CacheF) (slug : String)
        (locale : Option String) (raw gh ext : String) (st0 : Nat) (bd0 : String),
      getPagesGhUrls cfg slug locale = .ok (raw, gh) →
      w.net ⟨HttpMethod.head, raw ++ ".md", none⟩ = .resp st0 bd0 →
      ext = (if st0 = 200 then "md" else "html") →
      w.net ⟨HttpMethod.get, raw ++ "." ++ ext, some 5⟩ = .exn →
      (getPageContentLocale w cfg c slug locale).result
          = .ok (c (cacheKey slug locale), gh ++ "." ++ ext, ext)
      ∧ (getPageContentLocale w cfg c slug locale).cacheOps
          = [CacheOp.read (cacheKey slug locale)]
      ∧ (getPageContentLocale w cfg c slug locale).cache = c)
    ∧ (∀ (w : PageWorld) (cfg : PagesConfig) (c : CacheF) (slug : String)
        (locale : Option String) (raw gh ext : String) (st0 st1 : Nat) (bd0 bd1 : String),
      getPagesGhUrls cfg slug locale = .ok (raw, gh) →
      w.net ⟨HttpMethod.head, raw ++ ".md", none⟩ = .resp st0 bd0 →
      ext = (if st0 = 200 then "md" else "html") →
      w.net ⟨HttpMethod.get, raw ++ "." ++ ext, some 5⟩ = .resp st1 bd1 →
      st1 ≠ 404 → 400 ≤ st1 → st1 < 600 →
      (getPageContentLocale w cfg c slug locale).result
          = .ok (c (cacheKey slug locale), gh ++ "." ++ ext, ext)
      ∧ (getPageContentLocale w cfg c slug locale).cacheOps
          = [CacheOp.read (cacheKey slug locale)]
      ∧ (getPageContentLocale w cfg c slug locale).cache = c)
    ∧ (∀ (w : PageWorld) (cfg : PagesConfig) (c : CacheF) (slug : String)
        (locale : Option String) (raw gh ext : String) (st0 st1 : Nat) (bd0 bd1 : String),
      getPagesGhUrls cfg slug locale = .ok (raw, gh) →
      w.net ⟨HttpMethod.head, raw ++ ".md", none⟩ = .resp st0 bd0 →
      ext = (if st0 = 200 then "md" else "html") →
      w.net ⟨HttpMethod.get, raw ++ "." ++ ext, some 5⟩ = .resp st1 bd1 →
      st1 ≠ 404 → ¬(400 ≤ st1 ∧ st1 < 600) →
      (getPageContentLocale w cfg c slug locale).result
          = .ok (some bd1, gh ++ "." ++ ext, ext)
      ∧ (getPageContentLocale w cfg c slug locale).cacheOps
          = [CacheOp.write (cacheKey slug locale) bd1]
      ∧ (getPageContentLocale w cfg c slug locale).cache
          = cacheSet c (cacheKey slug locale) bd1)
    ∧ (∀ (w : PageWorld) (cfg : PagesConfig) (c : CacheF) (slug : String)
        (locale : Option String) (raw gh : String),
      getPagesGhUrls cfg slug locale = .ok (raw, gh) →
      w.net ⟨HttpMethod.head, raw ++ ".md", none⟩ = .exn →
      (getPageContentLocale w cfg c slug locale).result = .error PyExc.unboundLocal
      ∧ (getPageContentLocale w cfg c slug locale).cacheOps
          = [CacheOp.read (cacheKey slug locale)])
    ∧ (∀ (w1 w2 : PageWorld) (cfg : PagesConfig) (c : CacheF) (slug : String)
        (locale : Option String) (raw gh ext1 ext2 : String)
        (st0 st1 st0' : Nat) (bd0 bd1 bd0' : String),
      getPagesGhUrls cfg slug locale = .ok (raw, gh) →
      w1.net ⟨HttpMethod.head, raw ++ ".md", none⟩ = .resp st0 bd0 →
      ext1 = (if st0 = 200 then "md" else "html") →
      w1.net ⟨HttpMethod.get, raw ++ "." ++ ext1, some 5⟩ = .resp st1 bd1 →
      st1 ≠ 404 → ¬(400 ≤ st1 ∧ st1 < 600) →
      w2.net ⟨HttpMethod.head, raw ++ ".md", none⟩ = .resp st0' bd0' →
      ext2 = (if st0' = 200 then "md" else "html") →
      w2.net ⟨HttpMethod.get, raw ++ "." ++ ext2, some 5⟩ = .exn →
      (getPageContentLocale w2 cfg (getPageContentLocale w1 cfg c slug locale).cache
          slug locale).result = .ok (some bd1, gh ++ "." ++ ext2, ext2)) := by
  refine ⟨?_, ?_, ?_, ?_, ?_⟩
  · intro w cfg c slug locale raw gh ext st0 bd0 h1 h2 hext h3
    exact localeRun_fetchExn w cfg c slug locale raw gh ext st0 bd0 h1 h2 hext h3
  · intro w cfg c slug locale raw gh ext st0 st1 bd0 bd1 h1 h2 hext h3 h404 hlo hhi
    exact localeRun_httpError w cfg c slug locale raw gh ext st0 st1 bd0 bd1 h1 h2 hext h3 h404 hlo hhi
  · intro w cfg c slug locale raw gh ext st0 st1 bd0 bd1 h1 h2 hext h3 h404 herr
    exact localeRun_success w cfg c slug locale raw gh ext st0 st1 bd0 bd1 h1 h2 hext h3 h404 herr
  · intro w cfg c slug locale raw gh h1 h2
    exact ⟨(localeRun_probeExn w cfg c slug locale raw gh h1 h2).1,
           (localeRun_probeExn w cfg c slug locale raw gh h1 h2).2.1⟩
  · intro w1 w2 cfg c slug locale raw gh ext1 ext2 st0 st1 st0' bd0 bd1 bd0'
      h1 h2 hext1 h3 h404 herr h2' hext2 h3'
    have hsucc := localeRun_success w1 cfg c slug locale raw gh ext1 st0 st1 bd0 bd1
      h1 h2 hext1 h3 h404 herr
    have hexn := localeRun_fetchExn w2 cfg (cacheSet c (cacheKey slug locale) bd1)
      slug locale raw gh ext2 st0' bd0' h1 h2' hext2 h3'
    rw [hsucc.2.2, hexn.1]
    simp [cacheSet]

/-- The all-successful pages world of the C2 witness (GET body "v1"). -/
def wSucc : PageWorld :=
  ⟨fun req =>
    match req.method with
    | .head => .resp 200 ""
    | .get => .resp 200 "v1"⟩

/-- The pages world of the C2 witness whose probe succeeds but whose GET
raises a transport error. -/
def wFail : PageWorld :=
  ⟨fun req =>
    match req.method with
    | .head => .resp 200 ""
    | .get => .exn⟩

/-- C2 witness: a successful fetch followed by a failing fetch for the same
key returns the previously cached body. -/
theorem C2_amended_witness :
    (getPageContentLocale wFail cfgC
        (getPageContentLocale wSucc cfgC emptyCache "s" none).cache "s" none).result
      = .ok (some "v1",
          "https://github.com/opendatateam/udata-front/blob/master/pages/s" ++ "." ++ "md",
          "md") :=
  C2_amended_thm.2.2.2.2 wSucc wFail cfgC emptyCache "s" none
    "https://raw.githubusercontent.com/opendatateam/udata-front/master/pages/s"
    "https://github.com/opendatateam/udata-front/blob/master/pages/s"
    "md" "md" 200 200 200 "" "v1" ""
    rfl rfl rfl rfl (by decide) (by decide) rfl rfl rfl

/-- C4: with a configured feed template, `get_blog_post(lang)` first tries
the URL templated with the preferred language; a transport failure or a feed
parsing with zero entries falls through to the URL templated with the
default language; if both attempts fail or yield zero entries the function
returns none without raising (and has issued exactly the two requests);
otherwise it summarizes exactly the first entry of the first feed that has
at least one entry, with no sort. -/
theorem C4_thm (w : BlogWorld) (cfg : BlogConfig) (lang tmpl : String)
    (htm : cfg.wpAtomUrl = some tmpl) (hne : tmpl ≠ "") :
    (w.net ⟨HttpMethod.get, fmtLang tmpl lang, some WP_TIMEOUT⟩ = .exn →
      w.net ⟨HttpMethod.get, fmtLang tmpl cfg.defaultLanguage, some WP_TIMEOUT⟩ = .exn →
      getBlogPost w cfg lang = (.ok none,
        [⟨HttpMethod.get, fmtLang tmpl lang, some WP_TIMEOUT⟩,
         ⟨HttpMethod.get, fmtLang tmpl cfg.defaultLanguage, some WP_TIMEOUT⟩]))
    ∧ (∀ (st : Nat) (bd : String) (e : FeedEntry) (es : List FeedEntry),
        w.net ⟨HttpMethod.get, fmtLang tmpl lang, some WP_TIMEOUT⟩ = .resp st bd →
        (w.parseFeed bd).entries = e :: es →
        (getBlogPost w cfg lang).1 = (summarizeEntry w e).map some
        ∧ (getBlogPost w cfg lang).2
            = [⟨HttpMethod.get, fmtLang tmpl lang, some WP_TIMEOUT⟩])
    ∧ ((w.net ⟨HttpMethod.get, fmtLang tmpl lang, some WP_TIMEOUT⟩ = .exn
        ∨ ∃ st bd, w.net ⟨HttpMethod.get, fmtLang tmpl lang, some WP_TIMEOUT⟩ = .resp st bd
            ∧ (w.parseFeed bd).entries = []) →
        ∀ (st2 : Nat) (bd2 : String) (e : FeedEntry) (es : List FeedEntry),
          w.net ⟨HttpMethod.get, fmtLang tmpl cfg.defaultLanguage, some WP_TIMEOUT⟩
              = .resp st2 bd2 →
          (w.parseFeed bd2).entries = e :: es →
          (getBlogPost w cfg lang).1 = (summarizeEntry w e).map some)
    ∧ ((w.net ⟨HttpMethod.get, fmtLang tmpl lang, some WP_TIMEOUT⟩ = .exn
        ∨ ∃ st bd, w.net ⟨HttpMethod.get, fmtLang tmpl lang, some WP_TIMEOUT⟩ = .resp st bd
            ∧ (w.parseFeed bd).entries = []) →
        (w.net ⟨HttpMethod.get, fmtLang tmpl cfg.defaultLanguage, some WP_TIMEOUT⟩ = .exn
        ∨ ∃ st bd, w.net ⟨HttpMethod.get, fmtLang tmpl cfg.defaultLanguage, some WP_TIMEOUT⟩
              = .resp st bd ∧ (w.parseFeed bd).entries = []) →
        (getBlogPost w cfg lang).1 = .ok none) := by
  refine ⟨?_, ?_, ?_, ?_⟩
  · intro h1 h2
    simp only [getBlogPost, htm, if_neg hne, h1, h2]
  · intro st bd e es h1 hent
    simp only [getBlogPost, htm, if_neg hne, h1]
    simp [feedFinish, hent]
  · intro hfail st2 bd2 e es h2 hent2
    rcases hfail with h1 | ⟨st, bd, h1, hemp⟩
    · simp only [getBlogPost, htm, if_neg hne, h1, h2]
      simp [feedFinish, hent2]
    · simp only [getBlogPost, htm, if_neg hne, h1, h2]
      simp [feedFinish, hent2, hemp]
  · intro hfail1 hfail2
    rcases hfail1 with h1 | ⟨st, bd, h1, hemp⟩ <;>
      rcases hfail2 with h2 | ⟨st2, bd2, h2, hemp2⟩ <;>
      simp only [getBlogPost, htm, if_neg hne, h1, h2] <;>
      simp [feedFinish, *]

/-- The feed entry of the C4 witness. -/
def entC4 : FeedEntry :=
  { title := "t", link := "l", published := "p",
    summaryField := some "s",
    media_thumbnail := ["http://m/1.png"] }

/-- The blog world of the C4 witness: the preferred-language fetch raises a
transport error, the default-language fetch succeeds with a one-entry
feed. -/
def wC4 : BlogWorld :=
  { net := fun req =>
      if req.url = fmtLang "http://feed/\x7blang\x7d" "fr" then .exn else .resp 200 "f",
    parseFeed := fun _ => ⟨[entC4]⟩,
    parseDate := fun _ => .ok 7 }

/-- The configuration of the C4 witness (default language "en"). -/
def cfgC4 : BlogConfig := ⟨some "http://feed/\x7blang\x7d", "en"⟩

/-- C4 witness: the theorem applied where the first attempt fails and the
second succeeds — the summary is that of the first entry of the second
feed. -/
theorem C4_witness :
    (getBlogPost wC4 cfgC4 "fr").1 = (summarizeEntry wC4 entC4).map some :=
  (C4_thm wC4 cfgC4 "fr" "http://feed/\x7blang\x7d" rfl (by decide)).2.2.1
    (Or.inl (by rfl)) 200 "f" entC4 [] (by rfl) rfl
